import Mathlib

/-!
# Cosmos-Admin: multi-tenant product/module visibility resolver

Shallow embedding of the visibility-resolution engine of the Cosmos-Admin
backend: the data model (modules, tenant-module entitlements, products and
tenant-product sync rows), the repository queries of
src/db/repositories/product_repo.py, and the HTTP handlers of
src/api/v1/products.py, src/api/v1/modules.py and src/api/deps.py.

Database tables are embedded as Lean lists of rows; a SQL query becomes a
filter/find over those lists, an UPDATE of a row fetched by primary key
becomes a replace-first-match, and a handler that can raise an HTTPException
becomes a function into Except carrying the HTTP status code.  SQL
three-valued logic on the outer-joined TenantProduct columns is embedded by
making comparisons against a missing row false, and the IS NULL test the
Option.isNone test.
-/

namespace CosmosAdmin

/-- Primary keys / UUIDs are opaque strings in the source. -/
abbrev Id := String

/-- Row of the modules table (src/models/module.py, class Module).
Columns not consulted by the resolver (name, description, version,
config_schema) are omitted. -/
structure Module where
  id : Id
  code : String
  is_active : Bool
  is_core : Bool
deriving DecidableEq

/-- Row of the tenant_modules table (src/models/module.py, class TenantModule). -/
structure TenantModule where
  tenant_id : Id
  module_id : Id
  is_enabled : Bool
deriving DecidableEq

/-- Row of the products table.  src/models/product.py is not in the tree; the
columns are taken from the migration
alembic/versions/d4e5f6a7b8c9_add_tenant_products_and_unlock_flag.py and from
every column referenced by product_repo.py / products.py:
tenant_id is nullable (NULL = platform product), module_id is the parent
module FK, and category / name / risk_level / category_id feed the filters
and the ORDER BY. -/
structure Product where
  id : Id
  tenant_id : Option Id
  module_id : Id
  category_id : Option Id
  code : String
  name : String
  category : String
  risk_level : Option String
  is_visible : Bool
  is_default : Bool
  is_unlocked_for_all : Bool
deriving DecidableEq

/-- Row of the tenant_products junction table (migration d4e5f6a7b8c9):
unique on (tenant_id, product_id), is_visible defaults true.  The surrogate
id column is used by the source only for the IS NULL outer-join test, which
the embedding expresses as Option.isNone, so it is omitted here. -/
structure TenantProduct where
  tenant_id : Id
  product_id : Id
  is_visible : Bool
deriving DecidableEq

/-- Row of the tenants table (src/models/tenant.py); only is_active is
consulted by the embedded code paths. -/
structure Tenant where
  id : Id
  is_active : Bool
deriving DecidableEq

/-- The database state: one list of rows per table. -/
structure DB where
  modules : List Module
  tenant_modules : List TenantModule
  products : List Product
  tenant_products : List TenantProduct
  tenants : List Tenant
deriving DecidableEq

/-- The opaque current_user dict supplied by the auth boundary:
user_id, tenant_id, roles.  tenant_id is None-able; the source's Python
falsiness test on it (None or empty string) is embedded as Option.isNone,
with the empty string mapped to none at construction. -/
structure UserCtx where
  user_id : Id
  tenant_id : Option Id
  roles : List String
deriving DecidableEq

/-! ## Module gating (product_repo.py lines 152-164) -/

/-- One module row passes the enabled_modules_query of
get_products_for_tenant: is_active AND (is_core OR a TenantModule row for
this tenant with is_enabled=True). -/
def moduleEnabledRow (db : DB) (tid : Id) (m : Module) : Bool :=
  m.is_active && (m.is_core || db.tenant_modules.any (fun tm =>
    tm.tenant_id == tid && tm.module_id == m.id && tm.is_enabled))

/-- The enabled_modules_query subquery: ids of modules enabled for the
tenant. -/
def enabledModuleIds (db : DB) (tid : Id) : List Id :=
  (db.modules.filter (moduleEnabledRow db tid)).map (fun m => m.id)

/-! ## TenantProduct lookups (product_repo.py lines 470-487) -/

/-- The WHERE predicate of get_tenant_product: tenant_id and product_id both
match. -/
def tpMatch (tid pid : Id) (tp : TenantProduct) : Bool :=
  tp.tenant_id == tid && tp.product_id == pid

/-- get_tenant_product: the TenantProduct row for a (tenant, product) pair,
unique by the uq_tenant_product constraint. -/
def get_tenant_product (db : DB) (tid pid : Id) : Option TenantProduct :=
  db.tenant_products.find? (tpMatch tid pid)

/-- get_synced_tenant_ids: tenant ids having a TenantProduct row for the
product. -/
def get_synced_tenant_ids (db : DB) (pid : Id) : List Id :=
  (db.tenant_products.filter (fun tp => tp.product_id == pid)).map
    (fun tp => tp.tenant_id)

/-- The synced_product_ids subquery of get_products_for_tenant: product ids
having a TenantProduct row for the tenant. -/
def syncedProductIds (db : DB) (tid : Id) : List Id :=
  (db.tenant_products.filter (fun tp => tp.tenant_id == tid)).map
    (fun tp => tp.product_id)

/-- The LEFT OUTER JOIN row of the listing query: the TenantProduct row with
product_id = Product.id and tenant_id = the tenant, when one exists.  The
join condition is exactly the get_tenant_product predicate. -/
def tpFor (db : DB) (tid : Id) (p : Product) : Option TenantProduct :=
  get_tenant_product db tid p.id

/-! ## The listing query (product_repo.py lines 131-260) -/

/-- Availability clause of the listing WHERE (lines 186-201): platform
product (tenant_id NULL, is_default) that is unlocked_for_all, or platform
product synced via a TenantProduct row, or a tenant-owned product. -/
def productAvailable (db : DB) (tid : Id) (p : Product) : Bool :=
  (p.tenant_id == none && p.is_default && p.is_unlocked_for_all)
  || (p.tenant_id == none && p.is_default
        && (syncedProductIds db tid).contains p.id)
  || (p.tenant_id == some tid)

/-- SQL comparison TenantProduct.is_visible == TRUE against the outer join:
NULL (no row) compares false. -/
def tpVisible (tp : Option TenantProduct) : Bool :=
  match tp with
  | some row => row.is_visible
  | none => false

/-- The visible_only clause (lines 214-247): tenant-owned products by
Product.is_visible; unlocked platform products by the TenantProduct
override when a row exists, else Product.is_visible; synced-only platform
products by TenantProduct.is_visible with no fallback. -/
def visibleFilter (tid : Id) (p : Product) (tp : Option TenantProduct) : Bool :=
  (p.tenant_id == some tid && p.is_visible)
  || (p.tenant_id == none && p.is_unlocked_for_all
        && (tpVisible tp || (tp.isNone && p.is_visible)))
  || (p.tenant_id == none && !p.is_unlocked_for_all && tpVisible tp)

/-- SQL equality of a nullable column against a non-null filter value:
NULL compares false. -/
def optEq (field : Option String) (wanted : String) : Bool :=
  match field with
  | some s => s == wanted
  | none => false

/-- The full WHERE clause of get_products_for_tenant for one product row,
including the optional module/category/risk filters and the visible_only
clause. -/
def listingWhere (db : DB) (tid : Id) (moduleId categoryId riskLevel : Option Id)
    (visible_only : Bool) (p : Product) : Bool :=
  (enabledModuleIds db tid).contains p.module_id
  && productAvailable db tid p
  && (match moduleId with
      | some mid => p.module_id == mid
      | none => true)
  && (match categoryId with
      | some cid => optEq p.category_id cid
      | none => true)
  && (match riskLevel with
      | some r => optEq p.risk_level r
      | none => true)
  && (!visible_only || visibleFilter tid p (tpFor db tid p))

/-- ORDER BY (Product.category, Product.name) on joined rows. -/
def rowLE (a b : Product × Option TenantProduct) : Bool :=
  if a.1.category = b.1.category then decide (a.1.name ≤ b.1.name)
  else decide (a.1.category ≤ b.1.category)

/-- Insertion step of the stable sort used to embed ORDER BY. -/
def insertRow (r : Product × Option TenantProduct) :
    List (Product × Option TenantProduct) → List (Product × Option TenantProduct)
  | [] => [r]
  | x :: xs => if rowLE r x then r :: x :: xs else x :: insertRow r xs

/-- Stable insertion sort embedding ORDER BY (category, name). -/
def sortRows : List (Product × Option TenantProduct) →
    List (Product × Option TenantProduct)
  | [] => []
  | x :: xs => insertRow x (sortRows xs)

/-- get_products_for_tenant (product_repo.py lines 131-260): filter the
products table by the WHERE clause, attach the outer-joined TenantProduct
row, order by (category, name), then apply OFFSET skip LIMIT limit. -/
def get_products_for_tenant (db : DB) (tid : Id)
    (moduleId categoryId riskLevel : Option Id) (visible_only : Bool)
    (skip limit : Nat) : List (Product × Option TenantProduct) :=
  ((sortRows ((db.products.filter
      (listingWhere db tid moduleId categoryId riskLevel visible_only)).map
      (fun p => (p, tpFor db tid p)))).drop skip).take limit

/-- ORDER BY (Product.category, Product.name) on bare products. -/
def prodLE (a b : Product) : Bool :=
  if a.category = b.category then decide (a.name ≤ b.name)
  else decide (a.category ≤ b.category)

/-- Insertion step for sorting bare products. -/
def insertProduct (r : Product) : List Product → List Product
  | [] => [r]
  | x :: xs => if prodLE r x then r :: x :: xs else x :: insertProduct r xs

/-- Stable insertion sort for bare products. -/
def sortProducts : List Product → List Product
  | [] => []
  | x :: xs => insertProduct x (sortProducts xs)

/-- get_default_products (product_repo.py lines 262-285): platform default
products (tenant_id NULL, is_default), optionally filtered by module and by
the product's own is_visible. -/
def get_default_products (db : DB) (moduleId : Option Id)
    (visible_only : Bool) : List Product :=
  sortProducts (db.products.filter (fun p =>
    p.tenant_id == none && p.is_default
    && (match moduleId with
        | some mid => p.module_id == mid
        | none => true)
    && (!visible_only || p.is_visible)))

/-! ## Sync management (product_repo.py lines 489-555) -/

/-- One iteration of the sync_product_to_tenants loop: skip when a
TenantProduct row already exists, else add a row with is_visible=True. -/
def syncOne (db : DB) (pid tid : Id) : DB :=
  match get_tenant_product db tid pid with
  | some _ => db
  | none =>
      { db with tenant_products :=
          db.tenant_products
            ++ [{ tenant_id := tid, product_id := pid, is_visible := true }] }

/-- sync_product_to_tenants (product_repo.py lines 489-510): for each tenant
in order, skip when a TenantProduct row already exists (the session sees rows
added earlier in the loop), else add a row with is_visible=True. -/
def sync_product_to_tenants (db : DB) (pid : Id) (tids : List Id) : DB :=
  tids.foldl (fun acc tid => syncOne acc pid tid) db

/-- unsync_product_from_tenants: DELETE the TenantProduct rows of the product
whose tenant is in the given list. -/
def unsync_product_from_tenants (db : DB) (pid : Id) (tids : List Id) : DB :=
  { db with tenant_products := db.tenant_products.filter (fun tp =>
      !(tp.product_id == pid && tids.contains tp.tenant_id)) }

/-- set_synced_tenants (lines 526-544): compute the current synced set,
remove the tenants no longer wanted, then add the missing ones. -/
def set_synced_tenants (db : DB) (pid : Id) (tids : List Id) : DB :=
  let current := get_synced_tenant_ids db pid
  let toRemove := current.filter (fun t => !tids.contains t)
  let db1 := if toRemove.isEmpty then db
    else unsync_product_from_tenants db pid toRemove
  let toAdd := tids.filter (fun t => !current.contains t)
  if toAdd.isEmpty then db1 else sync_product_to_tenants db1 pid toAdd

/-- Number of TenantProduct rows for a (tenant, product) pair. -/
def countTP (db : DB) (tid pid : Id) : Nat :=
  (db.tenant_products.filter (tpMatch tid pid)).length

/-! ## Row updates fetched by primary key -/

/-- repo.get / get_with_relations: primary-key lookup in the products
table (relations are reconstructed through the FK lookups below). -/
def get_with_relations (db : DB) (pid : Id) : Option Product :=
  db.products.find? (fun p => p.id == pid)

/-- The product.module ORM relation: FK lookup into the modules table. -/
def findModule (db : DB) (mid : Id) : Option Module :=
  db.modules.find? (fun m => m.id == mid)

/-- Setting is_visible on the Product ORM object fetched by primary key:
replace the first row with this id. -/
def setFirstProductVisibility : List Product → Id → Bool → List Product
  | [], _, _ => []
  | p :: rest, pid, v =>
    if p.id == pid then { p with is_visible := v } :: rest
    else setFirstProductVisibility rest pid v |> (p :: ·)

/-- toggle_visibility (product_repo.py line 343): update Product.is_visible. -/
def toggle_visibility (db : DB) (pid : Id) (v : Bool) : DB :=
  { db with products := setFirstProductVisibility db.products pid v }

/-- Setting is_visible on the TenantProduct ORM object returned by
get_tenant_product: replace the first row matching (tenant, product). -/
def setFirstTPVisibility : List TenantProduct → Id → Id → Bool → List TenantProduct
  | [], _, _, _ => []
  | tp :: rest, tid, pid, v =>
    if tpMatch tid pid tp then { tp with is_visible := v } :: rest
    else setFirstTPVisibility rest tid pid v |> (tp :: ·)

/-- repo.update on the Product ORM object fetched by primary key: apply the
field update to the first row with this id. -/
def applyFirstProduct : List Product → Id → (Product → Product) → List Product
  | [], _, _ => []
  | p :: rest, pid, upd =>
    if p.id == pid then upd p :: rest
    else applyFirstProduct rest pid upd |> (p :: ·)

/-- repo.delete on the product fetched by primary key: drop the first row
with this id. -/
def removeFirstProduct : List Product → Id → List Product
  | [], _ => []
  | p :: rest, pid =>
    if p.id == pid then rest else removeFirstProduct rest pid |> (p :: ·)

/-! ## Auth dependencies (src/api/deps.py) -/

/-- The decoded JWT payload (src/core/security.py, class TokenPayload);
exp/iat are consumed inside the external jwt.decode and omitted. -/
structure TokenPayload where
  sub : Id
  tenant_id : Id
  roles : List String
deriving DecidableEq

/-- The mock user's tenant id constant (deps.py line 30). -/
def devTenantId : Id := "00000000-0000-0000-0000-000000000000"

/-- The hard-coded development mock user of deps.py lines 28-33. -/
def DEV_MOCK_USER : UserCtx :=
  { user_id := "00000000-0000-0000-0000-000000000001"
  , tenant_id := some devTenantId
  , roles := ["super_admin"] }

/-- Python falsiness of the optional bearer credentials:
credentials is None or credentials.credentials is the empty string. -/
def credFalsy : Option String → Bool
  | none => true
  | some s => s.isEmpty

/-- check_tenant_active (deps.py lines 18-24): the tenant row exists and
is_active. -/
def check_tenant_active (db : DB) (tid : Id) : Bool :=
  match db.tenants.find? (fun t => t.id == tid) with
  | some t => t.is_active
  | none => false

/-- get_current_user (deps.py lines 36-82).  The JWT verifier is external:
it is passed in as the decode argument, with none standing for an invalid or
expired token.  A payload tenant_id that is Python-falsy (empty string) maps
to none in the produced context. -/
def get_current_user (debug : Bool) (decode : String → Option TokenPayload)
    (db : DB) (cred : Option String) : Except Nat UserCtx :=
  if debug && credFalsy cred then .ok DEV_MOCK_USER
  else
    match cred with
    | none => .error 401
    | some token =>
      match decode token with
      | none => if debug then .ok DEV_MOCK_USER else .error 401
      | some payload =>
        if !payload.tenant_id.isEmpty then
          if check_tenant_active db payload.tenant_id then
            .ok { user_id := payload.sub, tenant_id := some payload.tenant_id
                , roles := payload.roles }
          else .error 403
        else
          .ok { user_id := payload.sub, tenant_id := none, roles := payload.roles }

/-- The platform-role test used by the handlers (products.py lines 178-181):
any of super_admin / platform_admin among the user roles. -/
def isPlatformAdmin (u : UserCtx) : Bool :=
  ["super_admin", "platform_admin"].any (fun r => u.roles.contains r)

/-- get_current_superuser (deps.py lines 85-100): 403 unless a platform
role is held. -/
def get_current_superuser (u : UserCtx) : Except Nat UserCtx :=
  if ["super_admin", "platform_admin"].any (fun r => u.roles.contains r)
  then .ok u else .error 403

/-- get_current_tenant_admin (deps.py lines 125-142): 403 unless
super_admin, platform_admin or tenant_admin is held. -/
def get_current_tenant_admin (u : UserCtx) : Except Nat UserCtx :=
  if ["super_admin", "platform_admin", "tenant_admin"].any (fun r => u.roles.contains r)
  then .ok u else .error 403

/-! ## Product endpoints (src/api/v1/products.py) -/

/-- The module-gate section of get_product (products.py lines 225-243):
403 when the module is inactive; for a non-core module, 403 when no enabled
TenantModule row exists for the tenant. -/
def moduleGateCheck (db : DB) (tid : Id) (m : Module) : Except Nat Unit :=
  if !m.is_active then .error 403
  else if !m.is_core
      && !(db.tenant_modules.any (fun tm =>
            tm.tenant_id == tid && tm.module_id == m.id && tm.is_enabled))
    then .error 403
  else .ok ()

/-- get_product, GET /products/{id} (products.py lines 164-259).  Returns
the product and the tenant's TenantProduct row (None where the source
builds the response without one). -/
def get_product (db : DB) (u : UserCtx) (pid : Id) :
    Except Nat (Product × Option TenantProduct) :=
  match get_with_relations db pid with
  | none => .error 404
  | some product =>
    if isPlatformAdmin u then .ok (product, none)
    else
      match product.tenant_id with
      | some ptid =>
        if u.tenant_id = some ptid then .ok (product, none) else .error 403
      | none =>
        match u.tenant_id with
        | none => .error 400
        | some tid =>
          match findModule db product.module_id with
          | none => .error 404
          | some m =>
            match moduleGateCheck db tid m with
            | .error e => .error e
            | .ok _ =>
              if product.is_unlocked_for_all then
                .ok (product, get_tenant_product db tid pid)
              else
                match get_tenant_product db tid pid with
                | none => .error 403
                | some tp => .ok (product, some tp)

/-- update_product, PATCH /products/{id} (products.py lines 373-432).  The
request payload shape lives in src/schemas/product.py, which is not in the
tree; its application to the fetched row is abstracted as the upd argument,
applied to the first row with the product id.  All permission checks are
from the source: platform defaults require a platform role, tenant products
require the caller's tenant to match. -/
def update_product (db : DB) (u : UserCtx) (pid : Id) (upd : Product → Product) :
    Except Nat DB :=
  match get_current_tenant_admin u with
  | .error e => .error e
  | .ok _ =>
    match get_with_relations db pid with
    | none => .error 404
    | some product =>
      match product.tenant_id with
      | none =>
        if isPlatformAdmin u then
          .ok { db with products := applyFirstProduct db.products pid upd }
        else .error 403
      | some ptid =>
        if u.tenant_id = some ptid then
          .ok { db with products := applyFirstProduct db.products pid upd }
        else .error 403

/-- update_product_visibility, PATCH /products/{id}/visibility (products.py
lines 435-503): tenant-owned products update Product.is_visible after an
ownership check; unlocked platform products lazily create the TenantProduct
row then set its is_visible; synced-only platform products require the row,
else 403. -/
def update_product_visibility (db : DB) (u : UserCtx) (pid : Id) (v : Bool) :
    Except Nat DB :=
  match get_current_tenant_admin u with
  | .error e => .error e
  | .ok _ =>
    match u.tenant_id with
    | none => .error 400
    | some tid =>
      match get_with_relations db pid with
      | none => .error 404
      | some product =>
        match product.tenant_id with
        | some ptid =>
          if ptid == tid then .ok (toggle_visibility db pid v) else .error 403
        | none =>
          let tp := get_tenant_product db tid pid
          if product.is_unlocked_for_all then
            let db1 := if tp.isNone then sync_product_to_tenants db pid [tid] else db
            .ok { db1 with tenant_products :=
                    setFirstTPVisibility db1.tenant_products tid pid v }
          else
            match tp with
            | none => .error 403
            | some _ =>
              .ok { db with tenant_products :=
                      setFirstTPVisibility db.tenant_products tid pid v }

/-- BaseRepository.get for products (base.py lines 47-58): a primary-key
lookup followed by the ambient tenant-context check — when a current tenant
is set in the request context and the row's tenant_id differs from it
(a platform row's NULL tenant_id also differs), the row is hidden.  ctx is
the ambient current tenant: get_current_user sets it from the authenticated
caller's JWT tenant_id (deps.py line 76); it stays unset (none) on the
debug mock path. -/
def repo_get (db : DB) (ctx : Option Id) (pid : Id) : Option Product :=
  match db.products.find? (fun p => p.id == pid) with
  | none => none
  | some obj =>
    match ctx with
    | some current => if obj.tenant_id == some current then some obj else none
    | none => some obj

/-- delete_product, DELETE /products/{id} (products.py lines 506-548):
the product is fetched through BaseRepository.get, so the ambient
tenant-context filter applies before the permission checks; platform
defaults then require a platform role and tenant products require the
caller's tenant to match. -/
def delete_product (db : DB) (ctx : Option Id) (u : UserCtx) (pid : Id) :
    Except Nat DB :=
  match get_current_tenant_admin u with
  | .error e => .error e
  | .ok _ =>
    match repo_get db ctx pid with
    | none => .error 404
    | some product =>
      match product.tenant_id with
      | none =>
        if isPlatformAdmin u then
          .ok { db with products := removeFirstProduct db.products pid }
        else .error 403
      | some ptid =>
        if u.tenant_id = some ptid then
          .ok { db with products := removeFirstProduct db.products pid }
        else .error 403

/-! ## Modules endpoint (src/api/v1/modules.py) -/

/-- list_modules, GET /api/v1/modules (modules.py lines 13-19): the handler
body is a stub returning the empty list for every tenant. -/
def list_modules (db : DB) (u : UserCtx) : List Module :=
  []

/-! ## Spec-side predicates (for refinement comparison) -/

/-- The eligibility chain as the spec states it for claims C1 and C5
(spec section 4.2 a+b): parent module enabled, and the product tenant-owned,
or a platform product that is unlocked-for-all, or a platform product with
an existing TenantProduct row. -/
def specReachable (db : DB) (tid : Id) (p : Product) : Bool :=
  p.tenant_id == some tid
  || (p.tenant_id == none && p.is_unlocked_for_all)
  || (p.tenant_id == none && (get_tenant_product db tid p.id).isSome)

/-- Spec-side eligibility: module gate plus reachability. -/
def specEligible (db : DB) (tid : Id) (p : Product) : Bool :=
  (enabledModuleIds db tid).contains p.module_id && specReachable db tid p

/-- The three-way visibility rule exactly as claim C1 states it:
tenant-owned products by Product.is_visible; unlocked platform products by
the TenantProduct row when present, else Product.is_visible; locked platform
products need a row with is_visible=True, absence means invisible. -/
def threeWayVisible (db : DB) (tid : Id) (p : Product) : Bool :=
  match p.tenant_id with
  | some t => t == tid && p.is_visible
  | none =>
    if p.is_unlocked_for_all then
      match get_tenant_product db tid p.id with
      | some tp => tp.is_visible
      | none => p.is_visible
    else
      match get_tenant_product db tid p.id with
      | some tp => tp.is_visible
      | none => false

/-! ## Helper lemmas -/

theorem mem_insertRow (r x : Product × Option TenantProduct)
    (l : List (Product × Option TenantProduct)) :
    r ∈ insertRow x l ↔ r = x ∨ r ∈ l := by
  induction l with
  | nil => simp [insertRow]
  | cons y ys ih =>
    simp only [insertRow]
    by_cases h : rowLE x y = true
    · simp [h]
    · simp only [if_neg h, List.mem_cons, ih]
      tauto

theorem mem_sortRows (r : Product × Option TenantProduct)
    (l : List (Product × Option TenantProduct)) :
    r ∈ sortRows l ↔ r ∈ l := by
  induction l with
  | nil => simp [sortRows]
  | cons y ys ih => simp [sortRows, mem_insertRow, ih]

theorem length_insertRow (x : Product × Option TenantProduct)
    (l : List (Product × Option TenantProduct)) :
    (insertRow x l).length = l.length + 1 := by
  induction l with
  | nil => simp [insertRow]
  | cons y ys ih =>
    simp only [insertRow]
    by_cases h : rowLE x y = true
    · simp [h]
    · simp [if_neg h, ih]

theorem length_sortRows (l : List (Product × Option TenantProduct)) :
    (sortRows l).length = l.length := by
  induction l with
  | nil => rfl
  | cons y ys ih => simp [sortRows, length_insertRow, ih]

theorem mem_synced_iff (db : DB) (pid : Id) (t : Id) :
    t ∈ get_synced_tenant_ids db pid ↔
      ∃ tp ∈ db.tenant_products, tp.product_id = pid ∧ tp.tenant_id = t := by
  simp only [get_synced_tenant_ids, List.mem_map, List.mem_filter, beq_iff_eq]
  constructor
  · rintro ⟨tp, ⟨hmem, hpid⟩, ht⟩
    exact ⟨tp, hmem, hpid, ht⟩
  · rintro ⟨tp, hmem, hpid, ht⟩
    exact ⟨tp, ⟨hmem, hpid⟩, ht⟩

theorem get_tenant_product_eq_none_iff (db : DB) (tid pid : Id) :
    get_tenant_product db tid pid = none ↔
      ∀ tp ∈ db.tenant_products, ¬(tp.tenant_id = tid ∧ tp.product_id = pid) := by
  simp only [get_tenant_product, List.find?_eq_none, tpMatch, Bool.and_eq_true,
    beq_iff_eq, not_and]

theorem get_tenant_product_isSome_iff (db : DB) (tid pid : Id) :
    (get_tenant_product db tid pid).isSome = true ↔
      ∃ tp ∈ db.tenant_products, tp.tenant_id = tid ∧ tp.product_id = pid := by
  rw [Option.isSome_iff_exists]
  simp only [get_tenant_product]
  constructor
  · rintro ⟨tp, h⟩
    have hmem := List.mem_of_find?_eq_some h
    have hp := List.find?_some h
    simp only [tpMatch, Bool.and_eq_true, beq_iff_eq] at hp
    exact ⟨tp, hmem, hp.1, hp.2⟩
  · rintro ⟨tp, hmem, h1, h2⟩
    have : ∃ x ∈ db.tenant_products, tpMatch tid pid x = true :=
      ⟨tp, hmem, by simp [tpMatch, h1, h2]⟩
    rcases List.find?_isSome.mpr this |> Option.isSome_iff_exists.mp with ⟨y, hy⟩
    exact ⟨y, hy⟩

theorem get_tenant_product_mem_and_match (db : DB) (tid pid : Id)
    (tp : TenantProduct) (h : get_tenant_product db tid pid = some tp) :
    tp ∈ db.tenant_products ∧ tp.tenant_id = tid ∧ tp.product_id = pid := by
  have hmem := List.mem_of_find?_eq_some h
  have hp := List.find?_some h
  simp only [tpMatch, Bool.and_eq_true, beq_iff_eq] at hp
  exact ⟨hmem, hp.1, hp.2⟩

theorem find?_append_of_none {α : Type} (p : α → Bool) (l1 l2 : List α)
    (h : l1.find? p = none) : (l1 ++ l2).find? p = l2.find? p := by
  induction l1 with
  | nil => rfl
  | cons x xs ih =>
    rw [List.find?_cons] at h
    cases hx : p x with
    | true => simp [hx] at h
    | false =>
      simp only [hx] at h
      simpa [List.find?_cons, hx] using ih h

theorem find?_append_of_some {α : Type} (p : α → Bool) (l1 l2 : List α)
    (x : α) (h : l1.find? p = some x) : (l1 ++ l2).find? p = some x := by
  induction l1 with
  | nil => simp [List.find?] at h
  | cons y ys ih =>
    rw [List.find?_cons] at h
    cases hy : p y with
    | true =>
      simp only [hy] at h
      simpa [List.find?_cons, hy] using h
    | false =>
      simp only [hy] at h
      simpa [List.find?_cons, hy] using ih h

theorem sync_cons (db : DB) (pid t : Id) (ts : List Id) :
    sync_product_to_tenants db pid (t :: ts) =
      sync_product_to_tenants (syncOne db pid t) pid ts := rfl

theorem syncOne_products (db : DB) (pid t : Id) :
    (syncOne db pid t).products = db.products := by
  cases hg : get_tenant_product db t pid <;> simp [syncOne, hg]

theorem syncOne_modules (db : DB) (pid t : Id) :
    (syncOne db pid t).modules = db.modules := by
  cases hg : get_tenant_product db t pid <;> simp [syncOne, hg]

theorem syncOne_tenant_modules (db : DB) (pid t : Id) :
    (syncOne db pid t).tenant_modules = db.tenant_modules := by
  cases hg : get_tenant_product db t pid <;> simp [syncOne, hg]

theorem sync_products (pid : Id) (tids : List Id) :
    ∀ db : DB, (sync_product_to_tenants db pid tids).products = db.products := by
  induction tids with
  | nil => intro db; rfl
  | cons t ts ih =>
    intro db
    rw [sync_cons, ih, syncOne_products]

theorem mem_synced_syncOne (db : DB) (pid t a : Id) :
    a ∈ get_synced_tenant_ids (syncOne db pid t) pid ↔
      a ∈ get_synced_tenant_ids db pid ∨ a = t := by
  cases hg : get_tenant_product db t pid with
  | some tp =>
    have hm := get_tenant_product_mem_and_match db t pid tp hg
    have ht : t ∈ get_synced_tenant_ids db pid :=
      (mem_synced_iff db pid t).mpr ⟨tp, hm.1, hm.2.2, hm.2.1⟩
    simp only [syncOne, hg]
    constructor
    · exact Or.inl
    · rintro (h | rfl)
      · exact h
      · exact ht
  | none =>
    simp only [syncOne, hg, get_synced_tenant_ids, List.filter_append,
      List.map_append, List.mem_append]
    simp [List.filter]

theorem mem_synced_sync (pid : Id) (tids : List Id) :
    ∀ (db : DB) (a : Id),
      a ∈ get_synced_tenant_ids (sync_product_to_tenants db pid tids) pid ↔
        a ∈ get_synced_tenant_ids db pid ∨ a ∈ tids := by
  induction tids with
  | nil => intro db a; simp [sync_product_to_tenants]
  | cons t ts ih =>
    intro db a
    rw [sync_cons, ih, mem_synced_syncOne]
    simp only [List.mem_cons]
    tauto

theorem mem_synced_unsync (db : DB) (pid : Id) (R : List Id) (a : Id) :
    a ∈ get_synced_tenant_ids (unsync_product_from_tenants db pid R) pid ↔
      a ∈ get_synced_tenant_ids db pid ∧ a ∉ R := by
  simp only [unsync_product_from_tenants, get_synced_tenant_ids,
    List.mem_map, List.mem_filter, Bool.not_eq_eq_eq_not, Bool.not_true,
    Bool.and_eq_false_iff, beq_iff_eq, beq_eq_false_iff_ne, ne_eq]
  constructor
  · rintro ⟨tp, ⟨⟨hmem, hkeep⟩, hpid⟩, ht⟩
    rcases hkeep with h | h
    · exact absurd hpid h
    · refine ⟨⟨tp, ⟨hmem, hpid⟩, ht⟩, ?_⟩
      intro ha
      exact absurd (List.elem_iff.mpr (ht ▸ ha)) (by simpa using h)
  · rintro ⟨⟨tp, ⟨hmem, hpid⟩, ht⟩, ha⟩
    refine ⟨tp, ⟨⟨hmem, Or.inr ?_⟩, hpid⟩, ht⟩
    rw [ht]
    exact Bool.eq_false_iff.mpr fun hc => ha (List.elem_iff.mp hc)

theorem set_synced_mem (db : DB) (pid : Id) (S : List Id) (t : Id) :
    t ∈ get_synced_tenant_ids (set_synced_tenants db pid S) pid ↔ t ∈ S := by
  have hsub1 : ∀ a, a ∈ (get_synced_tenant_ids db pid).filter
        (fun x => !S.contains x) ↔
      a ∈ get_synced_tenant_ids db pid ∧ a ∉ S := by
    intro a
    simp [List.mem_filter, List.elem_iff]
  have hsub2 : ∀ a, a ∈ S.filter
        (fun x => !(get_synced_tenant_ids db pid).contains x) ↔
      a ∈ S ∧ a ∉ get_synced_tenant_ids db pid := by
    intro a
    simp [List.mem_filter, List.elem_iff]
  have hremF : ((get_synced_tenant_ids db pid).filter
        (fun x => !S.contains x)).isEmpty = true ↔
      ∀ a ∈ get_synced_tenant_ids db pid, a ∈ S := by
    rw [List.isEmpty_iff, List.filter_eq_nil_iff]
    simp [List.elem_iff]
  have haddF : (S.filter
        (fun x => !(get_synced_tenant_ids db pid).contains x)).isEmpty = true ↔
      ∀ a ∈ S, a ∈ get_synced_tenant_ids db pid := by
    rw [List.isEmpty_iff, List.filter_eq_nil_iff]
    simp [List.elem_iff]
  simp only [set_synced_tenants]
  split_ifs with h1 h2 h3
  · exact ⟨fun ht => hremF.mp h2 t ht, fun ht => haddF.mp h1 t ht⟩
  · rw [mem_synced_unsync]
    constructor
    · rintro ⟨hc, hnr⟩
      by_contra hnS
      exact hnr ((hsub1 t).mpr ⟨hc, hnS⟩)
    · intro ht
      refine ⟨haddF.mp h1 t ht, fun hr => ?_⟩
      exact ((hsub1 t).mp hr).2 ht
  · rw [mem_synced_sync]
    constructor
    · rintro (hc | hadd)
      · exact hremF.mp h3 t hc
      · exact ((hsub2 t).mp hadd).1
    · intro ht
      by_cases hc : t ∈ get_synced_tenant_ids db pid
      · exact Or.inl hc
      · exact Or.inr ((hsub2 t).mpr ⟨ht, hc⟩)
  · rw [mem_synced_sync, mem_synced_unsync]
    constructor
    · rintro (⟨hc, hnr⟩ | hadd)
      · by_contra hnS
        exact hnr ((hsub1 t).mpr ⟨hc, hnS⟩)
      · exact ((hsub2 t).mp hadd).1
    · intro ht
      by_cases hc : t ∈ get_synced_tenant_ids db pid
      · exact Or.inl ⟨hc, fun hr => ((hsub1 t).mp hr).2 ht⟩
      · exact Or.inr ((hsub2 t).mpr ⟨ht, hc⟩)

theorem set_synced_noop (db2 : DB) (pid : Id) (S : List Id)
    (h : ∀ t, t ∈ get_synced_tenant_ids db2 pid ↔ t ∈ S) :
    set_synced_tenants db2 pid S = db2 := by
  have hrem : ((get_synced_tenant_ids db2 pid).filter
      (fun x => !S.contains x)) = [] := by
    rw [List.filter_eq_nil_iff]
    intro a hmem
    simp [List.elem_iff, (h a).mp hmem]
  have hadd : (S.filter
      (fun x => !(get_synced_tenant_ids db2 pid).contains x)) = [] := by
    rw [List.filter_eq_nil_iff]
    intro a hmem
    simp [List.elem_iff, (h a).mpr hmem]
  simp only [set_synced_tenants, hrem, hadd, List.isEmpty_nil, if_true]

theorem filter_eq_nil_of_find?_none {α : Type} (p : α → Bool) (l : List α)
    (h : l.find? p = none) : l.filter p = [] := by
  rw [List.filter_eq_nil_iff]
  intro a ha
  simpa using List.find?_eq_none.mp h a ha

theorem setFirstTP_append_of_find?_none (l1 l2 : List TenantProduct)
    (tid pid : Id) (v : Bool) (h : l1.find? (tpMatch tid pid) = none) :
    setFirstTPVisibility (l1 ++ l2) tid pid v
      = l1 ++ setFirstTPVisibility l2 tid pid v := by
  induction l1 with
  | nil => rfl
  | cons x xs ih =>
    rw [List.find?_cons] at h
    cases hx : tpMatch tid pid x with
    | true => simp [hx] at h
    | false =>
      simp only [hx] at h
      simp [setFirstTPVisibility, hx, ih h]

theorem setFirstTP_single (T pid : Id) (b v : Bool) :
    setFirstTPVisibility [{ tenant_id := T, product_id := pid, is_visible := b }]
      T pid v
      = [{ tenant_id := T, product_id := pid, is_visible := v }] := by
  simp [setFirstTPVisibility, tpMatch]

theorem find?_setFirstTP_some (l : List TenantProduct) (tid pid : Id) (v : Bool)
    (tp : TenantProduct) (h : l.find? (tpMatch tid pid) = some tp) :
    (setFirstTPVisibility l tid pid v).find? (tpMatch tid pid)
      = some { tp with is_visible := v } := by
  induction l with
  | nil => simp [List.find?] at h
  | cons x xs ih =>
    rw [List.find?_cons] at h
    cases hx : tpMatch tid pid x with
    | true =>
      simp only [hx, Option.some.injEq] at h
      subst h
      have hx2 : tpMatch tid pid { x with is_visible := v } = true := hx
      simp [setFirstTPVisibility, hx, List.find?_cons, hx2]
    | false =>
      simp only [hx] at h
      have hx2 : tpMatch tid pid x = false := hx
      simp [setFirstTPVisibility, hx, List.find?_cons, hx2, ih h]

theorem find?_setFirstTP_other (l : List TenantProduct) (tid pid t2 p2 : Id)
    (v : Bool) (h : ¬(t2 = tid ∧ p2 = pid)) :
    (setFirstTPVisibility l tid pid v).find? (tpMatch t2 p2)
      = l.find? (tpMatch t2 p2) := by
  induction l with
  | nil => rfl
  | cons x xs ih =>
    cases hx : tpMatch tid pid x with
    | true =>
      have hx2 : tpMatch t2 p2 x = false := by
        cases hx2 : tpMatch t2 p2 x with
        | false => rfl
        | true =>
          exfalso
          simp only [tpMatch, Bool.and_eq_true, beq_iff_eq] at hx hx2
          exact h ⟨hx2.1.symm.trans hx.1, hx2.2.symm.trans hx.2⟩
      have hx3 : tpMatch t2 p2 { x with is_visible := v } = false := hx2
      simp [setFirstTPVisibility, hx, List.find?_cons, hx2, hx3]
    | false =>
      simp [setFirstTPVisibility, hx, List.find?_cons, ih]

theorem find?_append_single_nomatch {α : Type} (p : α → Bool) (l : List α)
    (row : α) (hrow : p row = false) :
    (l ++ [row]).find? p = l.find? p := by
  cases hf : l.find? p with
  | some tp => exact find?_append_of_some p l [row] tp hf
  | none =>
    rw [find?_append_of_none p l [row] hf]
    simp [List.find?_cons, List.find?_nil, hrow]

theorem find?_setFirstProduct_some (l : List Product) (pid : Id) (v : Bool)
    (p : Product) (h : l.find? (fun q => q.id == pid) = some p) :
    (setFirstProductVisibility l pid v).find? (fun q => q.id == pid)
      = some { p with is_visible := v } := by
  induction l with
  | nil => simp [List.find?] at h
  | cons x xs ih =>
    rw [List.find?_cons] at h
    cases hx : (x.id == pid) with
    | true =>
      simp only [hx, Option.some.injEq] at h
      subst h
      have hx2 : (({ x with is_visible := v } : Product).id == pid) = true := hx
      simp [setFirstProductVisibility, hx, List.find?_cons, hx2]
    | false =>
      simp only [hx] at h
      simp [setFirstProductVisibility, hx, List.find?_cons, ih h]

theorem find?_filter_none {α : Type} (p q : α → Bool) (l : List α)
    (h : l.find? p = none) : (l.filter q).find? p = none := by
  rw [List.find?_eq_none] at h ⊢
  intro x hx
  exact h x (List.mem_of_mem_filter hx)

theorem syncOne_eq_of_none (db : DB) (pid a : Id)
    (h : get_tenant_product db a pid = none) :
    syncOne db pid a = { db with tenant_products := db.tenant_products
      ++ [{ tenant_id := a, product_id := pid, is_visible := true }] } := by
  simp [syncOne, h]

theorem syncOne_eq_of_some (db : DB) (pid a : Id) (tp : TenantProduct)
    (h : get_tenant_product db a pid = some tp) :
    syncOne db pid a = db := by
  simp [syncOne, h]

theorem get_tp_syncOne_some (db : DB) (pid a t : Id) (tp : TenantProduct)
    (h : get_tenant_product db t pid = some tp) :
    get_tenant_product (syncOne db pid a) t pid = some tp := by
  cases hg : get_tenant_product db a pid with
  | some tp2 => rw [syncOne_eq_of_some db pid a tp2 hg]; exact h
  | none =>
    rw [syncOne_eq_of_none db pid a hg]
    simp only [get_tenant_product] at h ⊢
    exact find?_append_of_some _ _ _ _ h

theorem get_tp_sync_some (pid : Id) (L : List Id) :
    ∀ (db : DB) (t : Id) (tp : TenantProduct),
      get_tenant_product db t pid = some tp →
      get_tenant_product (sync_product_to_tenants db pid L) t pid = some tp := by
  induction L with
  | nil => intro db t tp h; exact h
  | cons a L2 ih =>
    intro db t tp h
    rw [sync_cons]
    exact ih _ t tp (get_tp_syncOne_some db pid a t tp h)

theorem get_tp_sync_new (pid : Id) (L : List Id) :
    ∀ (db : DB) (t : Id), t ∈ L → get_tenant_product db t pid = none →
      get_tenant_product (sync_product_to_tenants db pid L) t pid
        = some { tenant_id := t, product_id := pid, is_visible := true } := by
  induction L with
  | nil => intro db t h; simp at h
  | cons a L2 ih =>
    intro db t hmem hnone
    rw [sync_cons]
    by_cases hat : a = t
    · subst hat
      have h2 : get_tenant_product (syncOne db pid a) a pid
          = some { tenant_id := a, product_id := pid, is_visible := true } := by
        rw [syncOne_eq_of_none db pid a hnone]
        simp only [get_tenant_product] at hnone ⊢
        rw [find?_append_of_none _ _ _ hnone]
        simp [List.find?_cons, tpMatch]
      exact get_tp_sync_some pid L2 _ a _ h2
    · rcases List.mem_cons.mp hmem with rfl | hmem2
      · exact absurd rfl hat
      · have hpres : get_tenant_product (syncOne db pid a) t pid = none := by
          cases hg : get_tenant_product db a pid with
          | some tp2 => rw [syncOne_eq_of_some db pid a tp2 hg]; exact hnone
          | none =>
            rw [syncOne_eq_of_none db pid a hg]
            simp only [get_tenant_product] at hnone ⊢
            rw [find?_append_single_nomatch]
            · exact hnone
            · simp only [tpMatch, Bool.and_eq_false_iff]
              left
              exact beq_eq_false_iff_ne.mpr hat
        exact ih _ t hmem2 hpres

/-- Claim C3: after set_synced_tenants(P, S) the synced tenant set equals S
(rows are inserted for tenants in S lacking one, with is_visible True, and
rows outside S are deleted), and a second call with the same S leaves the
state unchanged. -/
theorem c3_set_synced_exact_and_idempotent (db : DB) (pid : Id) (S : List Id) :
    (∀ t, t ∈ get_synced_tenant_ids (set_synced_tenants db pid S) pid ↔ t ∈ S)
    ∧ (∀ t, t ∈ S → get_tenant_product db t pid = none →
        get_tenant_product (set_synced_tenants db pid S) t pid
          = some { tenant_id := t, product_id := pid, is_visible := true })
    ∧ set_synced_tenants (set_synced_tenants db pid S) pid S
        = set_synced_tenants db pid S := by
  refine ⟨set_synced_mem db pid S, ?_,
    set_synced_noop _ pid S (set_synced_mem db pid S)⟩
  intro t htS hnone
  have hncur : t ∉ get_synced_tenant_ids db pid := by
    intro hc
    rcases (mem_synced_iff db pid t).mp hc with ⟨tp, hmem, hpid, ht⟩
    exact (get_tenant_product_eq_none_iff db t pid).mp hnone tp hmem ⟨ht, hpid⟩
  have htAdd : t ∈ S.filter
      (fun x => !(get_synced_tenant_ids db pid).contains x) := by
    rw [List.mem_filter]
    refine ⟨htS, ?_⟩
    simp only [Bool.not_eq_eq_eq_not, Bool.not_true]
    exact Bool.eq_false_iff.mpr fun hc => hncur (List.elem_iff.mp hc)
  simp only [set_synced_tenants]
  split_ifs with h1 h2 h3
  · have : t ∈ ([] : List Id) := List.isEmpty_iff.mp h1 ▸ htAdd
    simp at this
  · have : t ∈ ([] : List Id) := List.isEmpty_iff.mp h1 ▸ htAdd
    simp at this
  · exact get_tp_sync_new pid _ db t htAdd hnone
  · have hnone2 : get_tenant_product (unsync_product_from_tenants db pid
        ((get_synced_tenant_ids db pid).filter (fun x => !S.contains x)))
        t pid = none := by
      simp only [get_tenant_product, unsync_product_from_tenants] at hnone ⊢
      exact find?_filter_none _ _ _ hnone
    exact get_tp_sync_new pid _ _ t htAdd hnone2

/-- The spec rule of section 4.1 for one module row. -/
def specModuleEnabled (db : DB) (tid : Id) (m : Module) : Prop :=
  m.is_active = true ∧ (m.is_core = true ∨ ∃ tm ∈ db.tenant_modules,
    tm.tenant_id = tid ∧ tm.module_id = m.id ∧ tm.is_enabled = true)

theorem tmAny_iff (db : DB) (tid : Id) (m : Module) :
    db.tenant_modules.any (fun tm =>
        tm.tenant_id == tid && tm.module_id == m.id && tm.is_enabled) = true ↔
      ∃ tm ∈ db.tenant_modules,
        tm.tenant_id = tid ∧ tm.module_id = m.id ∧ tm.is_enabled = true := by
  rw [List.any_eq_true]
  constructor
  · rintro ⟨tm, hmem, htm⟩
    simp only [Bool.and_eq_true, beq_iff_eq] at htm
    exact ⟨tm, hmem, htm.1.1, htm.1.2, htm.2⟩
  · rintro ⟨tm, hmem, h1, h2, h3⟩
    exact ⟨tm, hmem, by simp [h1, h2, h3]⟩

theorem moduleEnabledRow_iff (db : DB) (tid : Id) (m : Module) :
    moduleEnabledRow db tid m = true ↔ specModuleEnabled db tid m := by
  simp only [moduleEnabledRow, specModuleEnabled, Bool.and_eq_true,
    Bool.or_eq_true, tmAny_iff]

theorem mem_enabledModuleIds_iff (db : DB) (tid : Id) (m : Module)
    (hm : m ∈ db.modules)
    (huniq : ∀ m2 ∈ db.modules, m2.id = m.id → m2 = m) :
    (enabledModuleIds db tid).contains m.id = true ↔
      specModuleEnabled db tid m := by
  rw [List.elem_iff]
  simp only [enabledModuleIds, List.mem_map, List.mem_filter]
  constructor
  · rintro ⟨m2, ⟨hmem2, hrow⟩, hid⟩
    rw [huniq m2 hmem2 hid] at hrow
    exact (moduleEnabledRow_iff db tid m).mp hrow
  · intro h
    exact ⟨m, ⟨hm, (moduleEnabledRow_iff db tid m).mpr h⟩, rfl⟩

theorem moduleGateCheck_ok_iff (db : DB) (tid : Id) (m : Module) :
    moduleGateCheck db tid m = .ok () ↔ specModuleEnabled db tid m := by
  unfold moduleGateCheck specModuleEnabled
  cases ha : m.is_active with
  | false => simp [ha]
  | true =>
    cases hc : m.is_core with
    | true => simp [ha, hc]
    | false =>
      cases he : db.tenant_modules.any (fun tm =>
          tm.tenant_id == tid && tm.module_id == m.id && tm.is_enabled) with
      | true =>
        simp only [ha, hc, he, Bool.not_true, Bool.not_false, Bool.and_true,
          Bool.and_false, if_false, Bool.false_eq_true, false_or, true_and]
        constructor
        · intro _
          exact (tmAny_iff db tid m).mp he
        · intro _
          trivial
      | false =>
        simp only [ha, hc, he, Bool.not_true, Bool.not_false, Bool.and_true,
          Bool.and_false, if_false, if_true, Bool.false_eq_true, false_or,
          true_and]
        constructor
        · intro h
          simp at h
        · intro he2
          have := (tmAny_iff db tid m).mpr he2
          rw [he] at this
          exact absurd this (by simp)

/-- Claim C2: for every tenant and module, the module counts as enabled both
in the listing query gate and in the single-product read gate iff
module.is_active AND (module.is_core OR an enabled TenantModule row exists). -/
theorem c2_module_gate (db : DB) (tid : Id) (m : Module)
    (hm : m ∈ db.modules)
    (huniq : ∀ m2 ∈ db.modules, m2.id = m.id → m2 = m) :
    ((enabledModuleIds db tid).contains m.id = true ↔
      specModuleEnabled db tid m)
    ∧ (moduleGateCheck db tid m = .ok () ↔ specModuleEnabled db tid m) :=
  ⟨mem_enabledModuleIds_iff db tid m hm huniq, moduleGateCheck_ok_iff db tid m⟩

def mW : Module :=
  { id := "m1", code := "core_platform", is_active := true, is_core := true }

def tmW : TenantModule :=
  { tenant_id := "t1", module_id := "m1", is_enabled := true }

def tidW : Id := "t1"

def dbW : DB :=
  { modules := [mW], tenant_modules := [tmW], products := []
  , tenant_products := [], tenants := [] }

/-- Witness for c2_module_gate at a concrete database. -/
theorem c2_module_gate_witness :
    (mW ∈ dbW.modules ∧ ∀ m2 ∈ dbW.modules, m2.id = mW.id → m2 = mW)
    ∧ (((enabledModuleIds dbW tidW).contains mW.id = true ↔
          specModuleEnabled dbW tidW mW)
        ∧ (moduleGateCheck dbW tidW mW = .ok () ↔
          specModuleEnabled dbW tidW mW)) :=
  ⟨⟨by decide, by decide⟩,
    c2_module_gate dbW tidW mW (by decide) (by decide)⟩

def mC6 : Module :=
  { id := "m1", code := "core_platform", is_active := false, is_core := true }

def dbC6 : DB :=
  { modules := [mC6], tenant_modules := [], products := []
  , tenant_products := [], tenants := [] }

/-- Counterexample to claim C6 as stated: a core but inactive module does
not count as enabled — the listing gate excludes its id and the single-read
gate answers 403 — although the claim, quantifying only over core modules,
demands it be enabled. -/
theorem c6_counterexample :
    mC6.is_core = true
    ∧ (enabledModuleIds dbC6 tidW).contains mC6.id = false
    ∧ moduleGateCheck dbC6 tidW mC6 = .error 403 :=
  ⟨rfl, rfl, rfl⟩

/-- Claim C6 (amended): for every tenant and every core module that is also
active, the module counts as enabled regardless of which TenantModule rows
exist — in particular with zero TenantModule rows. -/
theorem c6_core_enabled (db : DB) (tid : Id) (m : Module)
    (hm : m ∈ db.modules) (hcore : m.is_core = true)
    (hactive : m.is_active = true) :
    (enabledModuleIds db tid).contains m.id = true
    ∧ moduleGateCheck db tid m = .ok () := by
  constructor
  · apply List.elem_iff.mpr
    simp only [enabledModuleIds, List.mem_map]
    exact ⟨m, List.mem_filter.mpr
      ⟨hm, by simp [moduleEnabledRow, hcore, hactive]⟩, rfl⟩
  · unfold moduleGateCheck
    simp [hcore, hactive]

def dbC6W : DB :=
  { modules := [mW], tenant_modules := [], products := []
  , tenant_products := [], tenants := [] }

/-- Witness for c6_core_enabled: a core active module with zero TenantModule
rows is enabled. -/
theorem c6_core_enabled_witness :
    (mW ∈ dbC6W.modules ∧ mW.is_core = true ∧ mW.is_active = true)
    ∧ ((enabledModuleIds dbC6W tidW).contains mW.id = true
        ∧ moduleGateCheck dbC6W tidW mW = .ok ()) :=
  ⟨⟨by decide, rfl, rfl⟩, c6_core_enabled dbC6W tidW mW (by decide) rfl rfl⟩

/-- Claim C10: with the debug setting on, get_current_user yields the
hard-coded mock super_admin for a request with no credentials or an
invalid/expired token, and both role-gated dependencies accept it. -/
theorem c10_debug_mock_user (decode : String → Option TokenPayload) (db : DB)
    (cred : Option String)
    (h : credFalsy cred = true ∨ ∃ tok, cred = some tok ∧ decode tok = none) :
    get_current_user true decode db cred = .ok DEV_MOCK_USER
    ∧ DEV_MOCK_USER.roles = ["super_admin"]
    ∧ get_current_superuser DEV_MOCK_USER = .ok DEV_MOCK_USER
    ∧ get_current_tenant_admin DEV_MOCK_USER = .ok DEV_MOCK_USER := by
  refine ⟨?_, rfl, rfl, rfl⟩
  rcases h with h | ⟨tok, rfl, hdec⟩
  · simp [get_current_user, h]
  · cases hcf : credFalsy (some tok) with
    | true => simp [get_current_user, hcf]
    | false => simp [get_current_user, hcf, hdec]

/-- A decoder rejecting every token (the invalid/expired case). -/
def noDecode : String → Option TokenPayload := fun _ => none

def dbEmpty : DB :=
  { modules := [], tenant_modules := [], products := []
  , tenant_products := [], tenants := [] }

/-- Witness for c10_debug_mock_user at a credential-less request. -/
theorem c10_debug_mock_user_witness :
    credFalsy none = true
    ∧ (get_current_user true noDecode dbEmpty none = .ok DEV_MOCK_USER
       ∧ DEV_MOCK_USER.roles = ["super_admin"]
       ∧ get_current_superuser DEV_MOCK_USER = .ok DEV_MOCK_USER
       ∧ get_current_tenant_admin DEV_MOCK_USER = .ok DEV_MOCK_USER) :=
  ⟨rfl, c10_debug_mock_user noDecode dbEmpty none (Or.inl rfl)⟩

def dbC9 : DB :=
  { modules := [mW], tenant_modules := [], products := []
  , tenant_products := [], tenants := [] }

def t1 : Id := "t1"

def uC9 : UserCtx :=
  { user_id := "u9", tenant_id := some t1, roles := ["tenant_admin"] }

/-- Claim C9: the GET /api/v1/modules handler is a stub returning the empty
list for every tenant, so a brand-new tenant with zero TenantModule rows
does not see core_platform in the module listing, although the resolver
rule counts that core active module enabled for the tenant. -/
theorem c9_list_modules_stub :
    list_modules dbC9 uC9 = ([] : List Module)
    ∧ moduleEnabledRow dbC9 t1 mW = true
    ∧ mW.code = "core_platform" ∧ mW.is_core = true :=
  ⟨rfl, rfl, rfl, rfl⟩

theorem some_beq_none (a : Id) : ((some a : Option Id) == none) = false := rfl

theorem none_beq_some (a : Id) : ((none : Option Id) == some a) = false := rfl

theorem some_beq_some (a b : Id) : ((some a : Option Id) == some b) = (a == b) := rfl

theorem none_beq_none : ((none : Option Id) == none) = true := rfl

theorem visibleFilter_eq_threeWay (db : DB) (tid : Id) (p : Product) :
    visibleFilter tid p (tpFor db tid p) = threeWayVisible db tid p := by
  unfold visibleFilter threeWayVisible tpFor tpVisible
  cases hp : p.tenant_id with
  | some t =>
    cases hg : get_tenant_product db tid p.id with
    | some tp => simp [some_beq_none, some_beq_some]
    | none => simp [some_beq_none, some_beq_some]
  | none =>
    cases hg : get_tenant_product db tid p.id with
    | some tp =>
      cases hu : p.is_unlocked_for_all <;>
        simp [none_beq_some, none_beq_none, hu]
    | none =>
      cases hu : p.is_unlocked_for_all <;>
        simp [none_beq_some, none_beq_none, hu]

theorem synced_contains_eq (db : DB) (tid pid : Id) :
    (syncedProductIds db tid).contains pid
      = (get_tenant_product db tid pid).isSome := by
  by_cases h : ∃ tp ∈ db.tenant_products, tp.tenant_id = tid ∧ tp.product_id = pid
  · have h1 : (get_tenant_product db tid pid).isSome = true :=
      (get_tenant_product_isSome_iff db tid pid).mpr h
    have h2 : (syncedProductIds db tid).contains pid = true := by
      rw [List.elem_iff]
      rcases h with ⟨tp, hmem, ht, hp2⟩
      simp only [syncedProductIds, List.mem_map, List.mem_filter, beq_iff_eq]
      exact ⟨tp, ⟨hmem, ht⟩, hp2⟩
    rw [h1, h2]
  · have h1 : (get_tenant_product db tid pid).isSome = false := by
      cases hg : get_tenant_product db tid pid with
      | none => rfl
      | some tp =>
        exfalso
        have hm := get_tenant_product_mem_and_match db tid pid tp hg
        exact h ⟨tp, hm.1, hm.2.1, hm.2.2⟩
    have h2 : (syncedProductIds db tid).contains pid = false := by
      apply Bool.eq_false_iff.mpr
      intro hc
      have := List.elem_iff.mp hc
      simp only [syncedProductIds, List.mem_map, List.mem_filter,
        beq_iff_eq] at this
      rcases this with ⟨tp, ⟨hmem, ht⟩, hp2⟩
      exact h ⟨tp, hmem, ht, hp2⟩
    rw [h1, h2]

theorem productAvailable_eq_specReachable (db : DB) (tid : Id) (p : Product)
    (hdef : p.tenant_id = none → p.is_default = true) :
    productAvailable db tid p = specReachable db tid p := by
  unfold productAvailable specReachable
  cases hp : p.tenant_id with
  | some t => simp [some_beq_none, some_beq_some]
  | none =>
    have hd : p.is_default = true := hdef hp
    rw [hd, synced_contains_eq]
    simp [none_beq_none]

theorem listingWhere_plain_iff (db : DB) (tid : Id) (p : Product)
    (hdef : p.tenant_id = none → p.is_default = true) :
    listingWhere db tid none none none true p = true ↔
      specEligible db tid p = true ∧ threeWayVisible db tid p = true := by
  unfold listingWhere specEligible
  rw [productAvailable_eq_specReachable db tid p hdef,
    visibleFilter_eq_threeWay]
  simp only [Bool.not_true, Bool.false_or, Bool.and_true, Bool.and_eq_true]

/-- Claim C1: with visible_only=True (and no filters, offset 0, limit at
least the table size) the listing returns a product exactly when the product
is eligible and visible under the three-way rule: tenant-owned products need
Product.is_visible; unlocked platform products use the TenantProduct row's
is_visible when one exists, else Product.is_visible; locked platform
products need an existing TenantProduct row with is_visible=True, with no
fallback. -/
theorem c1_listing_three_way (db : DB) (tid : Id) (p : Product)
    (hmem : p ∈ db.products)
    (hdef : p.tenant_id = none → p.is_default = true) :
    (∃ r ∈ get_products_for_tenant db tid none none none true 0
        db.products.length, r.1 = p) ↔
      specEligible db tid p = true ∧ threeWayVisible db tid p = true := by
  have hlen : (sortRows ((db.products.filter
      (listingWhere db tid none none none true)).map
      (fun q => (q, tpFor db tid q)))).length ≤ db.products.length := by
    rw [length_sortRows, List.length_map]
    exact List.length_filter_le _ _
  unfold get_products_for_tenant
  rw [List.drop_zero, List.take_of_length_le hlen]
  constructor
  · rintro ⟨r, hr, hfst⟩
    rw [mem_sortRows] at hr
    rcases List.mem_map.mp hr with ⟨q, hq, rfl⟩
    simp only at hfst
    subst hfst
    exact (listingWhere_plain_iff db tid q hdef).mp (List.mem_filter.mp hq).2
  · intro h
    refine ⟨(p, tpFor db tid p), ?_, rfl⟩
    rw [mem_sortRows]
    exact List.mem_map.mpr ⟨p, List.mem_filter.mpr
      ⟨hmem, (listingWhere_plain_iff db tid p hdef).mpr h⟩, rfl⟩

/-- Claim C4: update_product_visibility behaves per product origin: a
tenant-owned product of the caller's tenant has Product.is_visible updated
directly; an unlocked platform product with no TenantProduct row gets
exactly one row created ending at the requested visibility, and a second
call updates that same row without creating a duplicate; a locked platform
product with no row fails with 403 (raising before any write, so the state
is unchanged). -/
theorem c4_update_visibility (db : DB) (u : UserCtx) (T pid : Id) (p : Product)
    (v v2 : Bool)
    (hgate : get_current_tenant_admin u = .ok u)
    (ht : u.tenant_id = some T)
    (hp : get_with_relations db pid = some p) :
    (∀ ptid, p.tenant_id = some ptid → ptid = T →
      update_product_visibility db u pid v = .ok (toggle_visibility db pid v)
      ∧ get_with_relations (toggle_visibility db pid v) pid
          = some { p with is_visible := v }
      ∧ (toggle_visibility db pid v).tenant_products = db.tenant_products)
    ∧ (p.tenant_id = none → p.is_unlocked_for_all = true →
        get_tenant_product db T pid = none →
        ∃ db2, update_product_visibility db u pid v = .ok db2
          ∧ countTP db2 T pid = 1
          ∧ get_tenant_product db2 T pid
              = some { tenant_id := T, product_id := pid, is_visible := v }
          ∧ ∃ db3, update_product_visibility db2 u pid v2 = .ok db3
              ∧ countTP db3 T pid = 1
              ∧ get_tenant_product db3 T pid
                  = some { tenant_id := T, product_id := pid, is_visible := v2 })
    ∧ (p.tenant_id = none → p.is_unlocked_for_all = false →
        get_tenant_product db T pid = none →
        update_product_visibility db u pid v = .error 403) := by
  refine ⟨?_, ?_, ?_⟩
  · intro ptid hptid hptT
    subst hptT
    refine ⟨?_, ?_, rfl⟩
    · simp only [update_product_visibility, hgate, ht, hp, hptid,
        beq_self_eq_true, if_true]
    · exact find?_setFirstProduct_some db.products pid v p hp
  · intro hpt hu hnone
    have hnone2 : db.tenant_products.find? (tpMatch T pid) = none := hnone
    have hsync : sync_product_to_tenants db pid [T]
        = { db with tenant_products := db.tenant_products
            ++ [{ tenant_id := T, product_id := pid, is_visible := true }] } := by
      have hstep : sync_product_to_tenants db pid [T] = syncOne db pid T := rfl
      rw [hstep, syncOne_eq_of_none db pid T hnone]
    have hset : setFirstTPVisibility (db.tenant_products
          ++ [{ tenant_id := T, product_id := pid, is_visible := true }]) T pid v
        = db.tenant_products
          ++ [{ tenant_id := T, product_id := pid, is_visible := v }] := by
      rw [setFirstTP_append_of_find?_none _ _ _ _ _ hnone2, setFirstTP_single]
    have hgot : get_tenant_product { db with tenant_products :=
          db.tenant_products
          ++ [{ tenant_id := T, product_id := pid, is_visible := v }] } T pid
        = some { tenant_id := T, product_id := pid, is_visible := v } := by
      simp only [get_tenant_product]
      rw [find?_append_of_none _ _ _ hnone2]
      simp [List.find?_cons, tpMatch]
    refine ⟨{ db with tenant_products := db.tenant_products
        ++ [{ tenant_id := T, product_id := pid, is_visible := v }] },
      ?_, ?_, hgot, ?_⟩
    · simp only [update_product_visibility, hgate, ht, hp, hpt, hu, hnone,
        Option.isNone_none, if_true, hsync, hset]
    · unfold countTP
      simp only []
      rw [List.filter_append, filter_eq_nil_of_find?_none _ _ hnone2]
      simp [tpMatch]
    · have hp2 : get_with_relations { db with tenant_products :=
          db.tenant_products
          ++ [{ tenant_id := T, product_id := pid, is_visible := v }] } pid
        = some p := hp
      have hset2 : setFirstTPVisibility (db.tenant_products
            ++ [{ tenant_id := T, product_id := pid, is_visible := v }]) T pid v2
          = db.tenant_products
            ++ [{ tenant_id := T, product_id := pid, is_visible := v2 }] := by
        rw [setFirstTP_append_of_find?_none _ _ _ _ _ hnone2, setFirstTP_single]
      have hgot2 : get_tenant_product { db with tenant_products :=
            db.tenant_products
            ++ [{ tenant_id := T, product_id := pid, is_visible := v2 }] } T pid
          = some { tenant_id := T, product_id := pid, is_visible := v2 } := by
        simp only [get_tenant_product]
        rw [find?_append_of_none _ _ _ hnone2]
        simp [List.find?_cons, tpMatch]
      refine ⟨{ db with tenant_products := db.tenant_products
          ++ [{ tenant_id := T, product_id := pid, is_visible := v2 }] },
        ?_, ?_, hgot2⟩
      · simp only [update_product_visibility, hgate, ht, hp2, hpt, hu, hgot,
          Option.isNone_some, Bool.false_eq_true, if_false, hset2]
        simp
      · unfold countTP
        simp only []
        rw [List.filter_append, filter_eq_nil_of_find?_none _ _ hnone2]
        simp [tpMatch]
  · intro hpt hu hnone
    simp only [update_product_visibility, hgate, ht, hp, hpt, hu, hnone,
      Bool.false_eq_true, if_false]

def pW4 : Product :=
  { id := "p1", tenant_id := none, module_id := "m1", category_id := none
  , code := "fx", name := "FX Hedge", category := "INVESTMENT"
  , risk_level := none, is_visible := true, is_default := true
  , is_unlocked_for_all := true }

def pid1 : Id := "p1"

def uW4 : UserCtx :=
  { user_id := "u4", tenant_id := some t1, roles := ["tenant_admin"] }

def dbC4 : DB :=
  { modules := [mW], tenant_modules := [], products := [pW4]
  , tenant_products := [], tenants := [] }

/-- Witness for c4_update_visibility: the unlocked-platform conjunct at a
concrete database with no prior TenantProduct row. -/
theorem c4_update_visibility_witness :
    ∃ db2, update_product_visibility dbC4 uW4 pid1 false = .ok db2
      ∧ countTP db2 t1 pid1 = 1
      ∧ get_tenant_product db2 t1 pid1
          = some { tenant_id := t1, product_id := pid1, is_visible := false }
      ∧ ∃ db3, update_product_visibility db2 uW4 pid1 true = .ok db3
          ∧ countTP db3 t1 pid1 = 1
          ∧ get_tenant_product db3 t1 pid1
              = some { tenant_id := t1, product_id := pid1, is_visible := true } :=
  (c4_update_visibility dbC4 uW4 t1 pid1 pW4 false true rfl rfl rfl).2.1
    rfl rfl rfl

def tA : Id := "ta"

def tB : Id := "tb"

def pidB : Id := "pb"

def pB : Product :=
  { id := "pb", tenant_id := some tB, module_id := "m1", category_id := none
  , code := "own", name := "Own Product", category := "BASIC"
  , risk_level := none, is_visible := true, is_default := false
  , is_unlocked_for_all := false }

def uSuper : UserCtx :=
  { user_id := "us", tenant_id := some tA, roles := ["super_admin"] }

def dbC7 : DB :=
  { modules := [mW], tenant_modules := [], products := [pB]
  , tenant_products := [], tenants := [] }

/-- Counterexample to claim C7 as stated: a caller holding the super_admin
platform role whose tenant differs from the owner of a tenant-owned product
does not bypass the ownership check — update and visibility answer 403, and
delete answers 404 for an authenticated caller (whose JWT tenant is in the
ambient context, so BaseRepository.get hides the cross-tenant row) — never
the success a bypass would yield. -/
theorem c7_counterexample :
    isPlatformAdmin uSuper = true
    ∧ pB.tenant_id = some tB
    ∧ uSuper.tenant_id = some tA
    ∧ tA ≠ tB
    ∧ update_product_visibility dbC7 uSuper pidB false = .error 403
    ∧ update_product dbC7 uSuper pidB (fun q => q) = .error 403
    ∧ delete_product dbC7 (some tA) uSuper pidB = .error 404
    ∧ delete_product dbC7 none uSuper pidB = .error 403 :=
  ⟨rfl, rfl, rfl, by decide, rfl, rfl, rfl, rfl⟩

/-- Claim C7 (amended): every caller whose tenant differs from a
tenant-owned product's tenant is refused: 403 on update and on the
visibility toggle; on delete, 404 when the ambient tenant context is set
(it is set from every authenticated caller's JWT tenant, and makes
BaseRepository.get hide the cross-tenant row) and 403 when it is unset.
The handlers raise before any write, so the state is unchanged, and
platform roles get no bypass on tenant-owned products: their bypass exists
only for platform (tenant_id NULL) products. -/
theorem c7_cross_tenant_forbidden (db : DB) (u : UserCtx) (pid : Id)
    (p : Product) (tOwn a : Id) (upd : Product → Product) (v : Bool)
    (hp : get_with_relations db pid = some p)
    (hown : p.tenant_id = some tOwn)
    (ha : u.tenant_id = some a)
    (hne : a ≠ tOwn) :
    update_product db u pid upd = .error 403
    ∧ update_product_visibility db u pid v = .error 403
    ∧ (get_current_tenant_admin u = .ok u →
        delete_product db (some a) u pid = .error 404)
    ∧ (get_current_tenant_admin u = .ok u →
        delete_product db none u pid = .error 403)
    ∧ (∀ e, get_current_tenant_admin u = .error e →
        delete_product db (some a) u pid = .error e
        ∧ delete_product db none u pid = .error e) := by
  have hcond : ¬(u.tenant_id = some tOwn) := by
    rw [ha]
    intro hc
    exact hne (Option.some.inj hc)
  have hneq : (tOwn == a) = false :=
    beq_eq_false_iff_ne.mpr fun hc => hne hc.symm
  have hp2 : db.products.find? (fun q => q.id == pid) = some p := hp
  have hrg : repo_get db (some a) pid = none := by
    simp only [repo_get, hp2, hown, some_beq_some, hneq,
      Bool.false_eq_true, if_false]
  have hrg2 : repo_get db none pid = some p := by
    simp only [repo_get, hp2]
  refine ⟨?_, ?_, ?_, ?_, ?_⟩
  · cases hg : get_current_tenant_admin u with
    | error e =>
      have he : e = 403 := by
        unfold get_current_tenant_admin at hg
        split_ifs at hg with h
        all_goals try cases hg
        all_goals rfl
      subst he
      simp only [update_product, hg]
    | ok u2 =>
      simp only [update_product, hg, hp, hown]
      rw [if_neg hcond]
  · cases hg : get_current_tenant_admin u with
    | error e =>
      have he : e = 403 := by
        unfold get_current_tenant_admin at hg
        split_ifs at hg with h
        all_goals try cases hg
        all_goals rfl
      subst he
      simp only [update_product_visibility, hg]
    | ok u2 =>
      simp only [update_product_visibility, hg, ha, hp, hown, hneq,
        Bool.false_eq_true, if_false]
  · intro hG
    simp only [delete_product, hG, hrg]
  · intro hG
    simp only [delete_product, hG, hrg2, hown]
    rw [if_neg hcond]
  · intro e hE
    exact ⟨by simp only [delete_product, hE],
      by simp only [delete_product, hE]⟩

def uA7 : UserCtx :=
  { user_id := "ua", tenant_id := some tA, roles := ["tenant_admin"] }

/-- Witness for c7_cross_tenant_forbidden: a tenant_admin of another tenant
is refused on all three endpoints — 403 on update and visibility, 404 on
delete when authenticated (ambient tenant set), 403 on delete when the
ambient tenant is unset. -/
theorem c7_cross_tenant_forbidden_witness :
    update_product dbC7 uA7 pidB (fun q => q) = .error 403
    ∧ update_product_visibility dbC7 uA7 pidB false = .error 403
    ∧ delete_product dbC7 (some tA) uA7 pidB = .error 404
    ∧ delete_product dbC7 none uA7 pidB = .error 403 := by
  have h := c7_cross_tenant_forbidden dbC7 uA7 pidB pB tB tA (fun q => q)
    false rfl rfl rfl (by decide)
  exact ⟨h.1, h.2.1, h.2.2.1 rfl, h.2.2.2.1 rfl⟩

/-- Witness for c1_listing_three_way at a concrete database. -/
theorem c1_listing_three_way_witness :
    (pW4 ∈ dbC4.products ∧ (pW4.tenant_id = none → pW4.is_default = true))
    ∧ ((∃ r ∈ get_products_for_tenant dbC4 t1 none none none true 0
          dbC4.products.length, r.1 = pW4) ↔
        specEligible dbC4 t1 pW4 = true ∧ threeWayVisible dbC4 t1 pW4 = true) :=
  ⟨⟨by decide, fun _ => rfl⟩,
    c1_listing_three_way dbC4 t1 pW4 (by decide) (fun _ => rfl)⟩

theorem tpMatch_row_false (T pid t2 p2 : Id) (vv : Bool)
    (h : ¬(t2 = T ∧ p2 = pid)) :
    tpMatch t2 p2 { tenant_id := T, product_id := pid, is_visible := vv }
      = false := by
  simp only [tpMatch]
  by_cases h1 : T = t2
  · subst h1
    have h2 : ¬ pid = p2 := fun hc => h ⟨rfl, hc.symm⟩
    simp [beq_eq_false_iff_ne.mpr h2]
  · simp [beq_eq_false_iff_ne.mpr h1]

theorem visibleFilter_false_of_row_false (db2 : DB) (T : Id) (p : Product)
    (row : TenantProduct)
    (hplat : p.tenant_id = none)
    (hrow : get_tenant_product db2 T p.id = some row)
    (hvis : row.is_visible = false) :
    visibleFilter T p (tpFor db2 T p) = false := by
  unfold visibleFilter tpFor tpVisible
  rw [hplat, hrow]
  simp [none_beq_some, hvis]

theorem get_default_products_congr (db1 db2 : DB)
    (h : db1.products = db2.products) (mid : Option Id) (vis : Bool) :
    get_default_products db1 mid vis = get_default_products db2 mid vis := by
  unfold get_default_products
  rw [h]

theorem listing_excludes_of_row_false (db2 : DB) (T pid : Id) (p : Product)
    (hplat : p.tenant_id = none)
    (hpid : p.id = pid)
    (huniq2 : ∀ q ∈ db2.products, q.id = pid → q = p)
    (hrowF : ∃ row, get_tenant_product db2 T pid = some row
      ∧ row.is_visible = false) :
    ∀ r ∈ get_products_for_tenant db2 T none none none true 0
      db2.products.length, r.1.id ≠ pid := by
  intro r hr hid
  unfold get_products_for_tenant at hr
  rw [List.drop_zero] at hr
  have hr2 := List.mem_of_mem_take hr
  rw [mem_sortRows] at hr2
  rcases List.mem_map.mp hr2 with ⟨q, hq, rfl⟩
  simp only at hid
  have hqp : q = p := huniq2 q (List.mem_filter.mp hq).1 hid
  subst hqp
  have hlw := (List.mem_filter.mp hq).2
  simp only [listingWhere, Bool.and_eq_true] at hlw
  have hvf := hlw.2
  rw [Bool.not_true, Bool.false_or] at hvf
  rcases hrowF with ⟨row, hrow, hvis⟩
  have hvf2 : visibleFilter T q (tpFor db2 T q) = false := by
    apply visibleFilter_false_of_row_false db2 T q row hplat _ hvis
    rw [hid]
    exact hrow
  rw [hvf2] at hvf
  exact Bool.false_ne_true hvf

/-- Claim C8: when a tenant admin toggles visibility of a platform product,
only that tenant's TenantProduct row changes: the products table (hence the
product's own is_visible and the platform defaults listing) is untouched,
every other (tenant, product) TenantProduct lookup is unchanged, and the
tenant's own visible listing no longer returns the product. -/
theorem c8_visibility_frame (db : DB) (u : UserCtx) (T pid : Id) (p : Product)
    (db2 : DB)
    (ht : u.tenant_id = some T)
    (hp : get_with_relations db pid = some p)
    (hplat : p.tenant_id = none)
    (huniq : ∀ q ∈ db.products, q.id = pid → q = p)
    (hok : update_product_visibility db u pid false = .ok db2) :
    db2.products = db.products
    ∧ (∀ mid vis, get_default_products db2 mid vis
        = get_default_products db mid vis)
    ∧ (∀ t2 p2, ¬(t2 = T ∧ p2 = pid) →
        get_tenant_product db2 t2 p2 = get_tenant_product db t2 p2)
    ∧ (∀ r ∈ get_products_for_tenant db2 T none none none true 0
        db2.products.length, r.1.id ≠ pid) := by
  have hpid : p.id = pid := by
    have := List.find?_some hp
    exact beq_iff_eq.mp this
  cases hg : get_current_tenant_admin u with
  | error e =>
    simp only [update_product_visibility, hg] at hok
    cases hok
  | ok u2 =>
    cases htp : get_tenant_product db T pid with
    | none =>
      cases hu : p.is_unlocked_for_all with
      | false =>
        have heq : update_product_visibility db u pid false = .error 403 := by
          simp only [update_product_visibility, hg, ht, hp, hplat, hu, htp,
            Bool.false_eq_true, if_false]
        rw [heq] at hok
        cases hok
      | true =>
        have hnone2 : db.tenant_products.find? (tpMatch T pid) = none := htp
        have hsync : sync_product_to_tenants db pid [T]
            = { db with tenant_products := db.tenant_products
                ++ [{ tenant_id := T, product_id := pid, is_visible := true }] } := by
          have hstep : sync_product_to_tenants db pid [T] = syncOne db pid T := rfl
          rw [hstep, syncOne_eq_of_none db pid T htp]
        have hset : setFirstTPVisibility (db.tenant_products
              ++ [{ tenant_id := T, product_id := pid, is_visible := true }])
              T pid false
            = db.tenant_products
              ++ [{ tenant_id := T, product_id := pid, is_visible := false }] := by
          rw [setFirstTP_append_of_find?_none _ _ _ _ _ hnone2, setFirstTP_single]
        have heq : update_product_visibility db u pid false
            = .ok { db with tenant_products := db.tenant_products
                ++ [{ tenant_id := T, product_id := pid, is_visible := false }] } := by
          simp only [update_product_visibility, hg, ht, hp, hplat, hu, htp,
            Option.isNone_none, if_true, hsync, hset]
        rw [heq] at hok
        injection hok with hok2
        subst hok2
        have hprod : ({ db with tenant_products := db.tenant_products
            ++ [{ tenant_id := T, product_id := pid, is_visible := false }] }
            : DB).products = db.products := rfl
        refine ⟨hprod, fun mid vis => get_default_products_congr _ _ hprod mid vis,
          ?_, ?_⟩
        · intro t2 p2 hne
          simp only [get_tenant_product]
          exact find?_append_single_nomatch _ _ _
            (tpMatch_row_false T pid t2 p2 false hne)
        · apply listing_excludes_of_row_false _ T pid p hplat hpid
          · intro q hq
            rw [hprod] at hq
            exact huniq q hq
          · refine ⟨{ tenant_id := T, product_id := pid, is_visible := false },
              ?_, rfl⟩
            simp only [get_tenant_product]
            rw [find?_append_of_none _ _ _ hnone2]
            simp [List.find?_cons, tpMatch]
    | some tp0 =>
      have hshape : update_product_visibility db u pid false
          = .ok { db with tenant_products :=
              setFirstTPVisibility db.tenant_products T pid false } := by
        cases hu : p.is_unlocked_for_all with
        | true =>
          simp only [update_product_visibility, hg, ht, hp, hplat, hu, htp,
            Option.isNone_some, Bool.false_eq_true, if_false, if_true]
        | false =>
          simp only [update_product_visibility, hg, ht, hp, hplat, hu, htp,
            Bool.false_eq_true, if_false]
      rw [hshape] at hok
      injection hok with hok2
      subst hok2
      have hprod : ({ db with tenant_products :=
          setFirstTPVisibility db.tenant_products T pid false } : DB).products
          = db.products := rfl
      refine ⟨hprod, fun mid vis => get_default_products_congr _ _ hprod mid vis,
        ?_, ?_⟩
      · intro t2 p2 hne
        simp only [get_tenant_product]
        exact find?_setFirstTP_other _ T pid t2 p2 false
          (fun hc => hne ⟨hc.1, hc.2⟩)
      · apply listing_excludes_of_row_false _ T pid p hplat hpid
        · intro q hq
          rw [hprod] at hq
          exact huniq q hq
        · refine ⟨{ tp0 with is_visible := false }, ?_, rfl⟩
          simp only [get_tenant_product]
          exact find?_setFirstTP_some _ T pid false tp0 htp

def pidFx : Id := "fx"

def pFx : Product :=
  { id := "fx", tenant_id := none, module_id := "m1", category_id := none
  , code := "fx_hedge", name := "FX Hedge", category := "INVESTMENT"
  , risk_level := none, is_visible := true, is_default := true
  , is_unlocked_for_all := false }

def tpFxT : TenantProduct :=
  { tenant_id := "t1", product_id := "fx", is_visible := true }

def tpFxF : TenantProduct :=
  { tenant_id := "t1", product_id := "fx", is_visible := false }

def dbC8 : DB :=
  { modules := [mW], tenant_modules := [], products := [pFx]
  , tenant_products := [tpFxT], tenants := [] }

def dbC8b : DB :=
  { modules := [mW], tenant_modules := [], products := [pFx]
  , tenant_products := [tpFxF], tenants := [] }

/-- Witness for c8_visibility_frame at the fx_hedge scenario. -/
theorem c8_visibility_frame_witness :
    update_product_visibility dbC8 uW4 pidFx false = .ok dbC8b
    ∧ (dbC8b.products = dbC8.products
      ∧ (∀ mid vis, get_default_products dbC8b mid vis
          = get_default_products dbC8 mid vis)
      ∧ (∀ t2 p2, ¬(t2 = t1 ∧ p2 = pidFx) →
          get_tenant_product dbC8b t2 p2 = get_tenant_product dbC8 t2 p2)
      ∧ (∀ r ∈ get_products_for_tenant dbC8b t1 none none none true 0
          dbC8b.products.length, r.1.id ≠ pidFx)) :=
  ⟨rfl, c8_visibility_frame dbC8 uW4 t1 pidFx pFx dbC8b rfl rfl rfl
    (by decide) rfl⟩

/-- Whether a handler result is a success. -/
def isOkResult {α : Type} : Except Nat α → Bool
  | .ok _ => true
  | .error _ => false

theorem contains_enabled_of_findModule_none (db : DB) (tid mid : Id)
    (h : findModule db mid = none) :
    (enabledModuleIds db tid).contains mid = false := by
  apply Bool.eq_false_iff.mpr
  intro hc
  have hmem := List.elem_iff.mp hc
  simp only [enabledModuleIds, List.mem_map, List.mem_filter] at hmem
  rcases hmem with ⟨m, ⟨hmem2, _⟩, hid⟩
  have hnone := List.find?_eq_none.mp h m hmem2
  simp [hid] at hnone

theorem contains_enabled_of_findModule_some (db : DB) (tid mid : Id)
    (m : Module)
    (hnodup : (db.modules.map Module.id).Nodup)
    (h : findModule db mid = some m) :
    (enabledModuleIds db tid).contains mid = moduleEnabledRow db tid m := by
  have h2 : db.modules.find? (fun m2 => m2.id == mid) = some m := h
  have hmem := List.mem_of_find?_eq_some h2
  have hbeq : (m.id == mid) = true :=
    @List.find?_some Module (fun m2 => m2.id == mid) m db.modules h2
  have hid : m.id = mid := beq_iff_eq.mp hbeq
  cases hrow : moduleEnabledRow db tid m with
  | true =>
    apply List.elem_iff.mpr
    subst hid
    simp only [enabledModuleIds, List.mem_map]
    exact ⟨m, List.mem_filter.mpr ⟨hmem, hrow⟩, rfl⟩
  | false =>
    apply Bool.eq_false_iff.mpr
    intro hc
    have hc2 := List.elem_iff.mp hc
    simp only [enabledModuleIds, List.mem_map, List.mem_filter] at hc2
    rcases hc2 with ⟨m2, ⟨hmem2, hrow2⟩, hid2⟩
    have hm2 : m2 = m :=
      List.inj_on_of_nodup_map hnodup hmem2 hmem (by rw [hid2, hid])
    subst hm2
    rw [hrow] at hrow2
    exact Bool.false_ne_true hrow2

theorem moduleGateCheck_cases (db : DB) (tid : Id) (m : Module) :
    moduleGateCheck db tid m = .ok ()
    ∨ moduleGateCheck db tid m = .error 403 := by
  unfold moduleGateCheck
  split_ifs <;> simp

def mX : Module :=
  { id := "mx", code := "analytics", is_active := false, is_core := false }

def pidPo : Id := "po"

def pOwn : Product :=
  { id := "po", tenant_id := some t1, module_id := "mx", category_id := none
  , code := "own5", name := "Own Five", category := "BASIC"
  , risk_level := none, is_visible := true, is_default := false
  , is_unlocked_for_all := false }

def uT1 : UserCtx :=
  { user_id := "u5", tenant_id := some t1, roles := ["tenant_admin"] }

def dbC5 : DB :=
  { modules := [mX], tenant_modules := [], products := [pOwn]
  , tenant_products := [], tenants := [] }

/-- Counterexample to claim C5 as stated: for a caller without a platform
role, the single-product read succeeds on a tenant-owned product whose
parent module is inactive, although the listing eligibility chain (parent
module enabled) fails for it — the read skips the module gate for
tenant-owned products. -/
theorem c5_counterexample :
    isPlatformAdmin uT1 = false
    ∧ get_product dbC5 uT1 pidPo = .ok (pOwn, none)
    ∧ specEligible dbC5 t1 pOwn = false :=
  ⟨rfl, rfl, rfl⟩

/-- Claim C5 (amended): for a caller without a platform role belonging to
tenant T, the single-product read succeeds on a platform product exactly
when the listing eligibility chain holds (module enabled, and product
unlocked-for-all or synced), with the distinct errors 404 for a missing
module, 403 for an inactive module, 403 for a module not enabled, and 403
for an unreachable product; on a tenant-owned product it succeeds exactly
when the caller's tenant owns it, without consulting the module gate. -/
theorem c5_get_product_refines (db : DB) (u : UserCtx) (pid T : Id)
    (p : Product)
    (hu : isPlatformAdmin u = false)
    (ht : u.tenant_id = some T)
    (hp : get_with_relations db pid = some p)
    (hnodup : (db.modules.map Module.id).Nodup) :
    (p.tenant_id = none →
      (isOkResult (get_product db u pid) = specEligible db T p
      ∧ (findModule db p.module_id = none → get_product db u pid = .error 404)
      ∧ (∀ m, findModule db p.module_id = some m → m.is_active = false →
          get_product db u pid = .error 403)
      ∧ (∀ m, findModule db p.module_id = some m → m.is_active = true →
          m.is_core = false →
          db.tenant_modules.any (fun tm => tm.tenant_id == T
            && tm.module_id == m.id && tm.is_enabled) = false →
          get_product db u pid = .error 403)
      ∧ (∀ m, findModule db p.module_id = some m →
          moduleGateCheck db T m = .ok () →
          p.is_unlocked_for_all = false →
          get_tenant_product db T pid = none →
          get_product db u pid = .error 403)))
    ∧ (∀ t2, p.tenant_id = some t2 →
        get_product db u pid
          = if t2 = T then .ok (p, none) else .error 403) := by
  have hpid : p.id = pid := by
    have hb := List.find?_some hp
    exact beq_iff_eq.mp hb
  constructor
  · intro hplat
    refine ⟨?_, ?_, ?_, ?_, ?_⟩
    · cases hf : findModule db p.module_id with
      | none =>
        have h404 : get_product db u pid = .error 404 := by
          simp only [get_product, hp, hu, Bool.false_eq_true, if_false,
            hplat, ht, hf]
        rw [h404]
        unfold specEligible
        rw [contains_enabled_of_findModule_none db T p.module_id hf]
        rfl
      | some m =>
        have hcont := contains_enabled_of_findModule_some db T p.module_id m
          hnodup hf
        rcases moduleGateCheck_cases db T m with hgate | hgate
        · have hrow : moduleEnabledRow db T m = true :=
            (moduleEnabledRow_iff db T m).mpr
              ((moduleGateCheck_ok_iff db T m).mp hgate)
          cases hul : p.is_unlocked_for_all with
          | true =>
            have hok : get_product db u pid
                = .ok (p, get_tenant_product db T pid) := by
              simp only [get_product, hp, hu, Bool.false_eq_true, if_false,
                hplat, ht, hf, hgate, hul, if_true]
            rw [hok]
            unfold specEligible specReachable
            rw [hcont, hrow, hplat, hul]
            simp [isOkResult, none_beq_some, none_beq_none]
          | false =>
            cases htp : get_tenant_product db T pid with
            | none =>
              have herr : get_product db u pid = .error 403 := by
                simp only [get_product, hp, hu, Bool.false_eq_true, if_false,
                  hplat, ht, hf, hgate, hul, htp]
              rw [herr]
              unfold specEligible specReachable
              rw [hcont, hrow, hplat, hul, hpid, htp]
              simp [isOkResult, none_beq_some, none_beq_none]
            | some tp =>
              have hok2 : get_product db u pid = .ok (p, some tp) := by
                simp only [get_product, hp, hu, Bool.false_eq_true, if_false,
                  hplat, ht, hf, hgate, hul, htp]
              rw [hok2]
              unfold specEligible specReachable
              rw [hcont, hrow, hplat, hpid, htp]
              simp [isOkResult, none_beq_some, none_beq_none]
        · have hrow : moduleEnabledRow db T m = false := by
            cases hr : moduleEnabledRow db T m with
            | false => rfl
            | true =>
              have hok3 := (moduleGateCheck_ok_iff db T m).mpr
                ((moduleEnabledRow_iff db T m).mp hr)
              rw [hgate] at hok3
              cases hok3
          have herr : get_product db u pid = .error 403 := by
            simp only [get_product, hp, hu, Bool.false_eq_true, if_false,
              hplat, ht, hf, hgate]
          rw [herr]
          unfold specEligible
          rw [hcont, hrow]
          rfl
    · intro hf
      simp only [get_product, hp, hu, Bool.false_eq_true, if_false,
        hplat, ht, hf]
    · intro m hf hact
      have hgate : moduleGateCheck db T m = .error 403 := by
        unfold moduleGateCheck
        simp [hact]
      simp only [get_product, hp, hu, Bool.false_eq_true, if_false,
        hplat, ht, hf, hgate]
    · intro m hf hact hcore hany
      have hgate : moduleGateCheck db T m = .error 403 := by
        unfold moduleGateCheck
        simp [hact, hcore, hany]
      simp only [get_product, hp, hu, Bool.false_eq_true, if_false,
        hplat, ht, hf, hgate]
    · intro m hf hgate hul htp
      simp only [get_product, hp, hu, Bool.false_eq_true, if_false,
        hplat, ht, hf, hgate, hul, htp]
  · intro t2 hsome
    have hred : get_product db u pid
        = if u.tenant_id = some t2 then .ok (p, none) else .error 403 := by
      simp only [get_product, hp, hu, Bool.false_eq_true, if_false, hsome]
    rw [hred, ht]
    by_cases hT : t2 = T
    · subst hT
      simp
    · rw [if_neg, if_neg hT]
      intro hc
      exact hT (Option.some.inj hc).symm

/-- Witness for c5_get_product_refines: the success-iff-eligibility equation
at a concrete database with a reachable platform product. -/
theorem c5_get_product_refines_witness :
    (isPlatformAdmin uW4 = false ∧ (dbC4.modules.map Module.id).Nodup)
    ∧ isOkResult (get_product dbC4 uW4 pid1) = specEligible dbC4 t1 pW4 :=
  ⟨⟨rfl, by decide⟩,
    ((c5_get_product_refines dbC4 uW4 pid1 t1 pW4 rfl rfl rfl
      (by decide)).1 rfl).1⟩

end CosmosAdmin
